import Mathlib

/-!
Verification of the core infrastructure of the `mcp-openproject` server:
the HTTP gateway's retry interceptor and conditional (ETag) cache, the
conflict-safe update helper `patchWithConflictRetry`, the delete handlers,
and the `openproject-sync` tool (per-scope locking, paginated pull,
batched push).

The embedding is a shallow one: the TypeScript functions of
`src/helpers.ts` and `src/mcp.ts` are translated into pure Lean
functions.  Effects (HTTP requests, MCP notifications) are made explicit:
every outbound action is recorded in a trace, and the backend is an
oracle supplied as an argument.  Javascript truthiness on optional
string/number fields is modelled with `Option` (`none` = absent or falsy).
-/

namespace OPMCP

/-- An axios-style error as observed by the handlers: `status` is
`err.response?.status` (`none` when there is no HTTP response) and `msg`
is what `getErrorMessage` would produce for it (the redaction logic of
`getErrorMessage` is collapsed into this opaque message). -/
structure AxErr where
  status : Option Nat
  msg : String
deriving DecidableEq, Repr


/-- A pulled resource (work package).  The sync handler only ever reads
`el.id` (for error messages); all other fields are opaque. -/
structure Item where
  id : Option String
deriving DecidableEq, Repr


/-- A candidate item handed to the sync push (`itemsToPush` entries are
`z.any()`); `none` models an absent or falsy field
(`if (item.subject)` etc.), `lockVersion` is `some` exactly when
`typeof item.lockVersion === "number"`. -/
structure PushItem where
  id : Option String
  subject : Option String
  description : Option String
  lockVersion : Option Int
  type : Option String
deriving DecidableEq, Repr


/-- The update payload built by the push branch and by
`openproject-update-task`: only the fields actually present are set
(the `{raw: ...}` wrapper around `description` is collapsed). -/
structure UpdatePayload where
  subject : Option String
  description : Option String
  lockVersion : Option Int
deriving DecidableEq, Repr


/-- The create payload built by the push branch, with the code's
fallbacks already applied. -/
structure CreatePayload where
  subject : String
  description : String
  typeHref : String
  projectHref : String
deriving DecidableEq, Repr


/-- One outbound action of the handlers, in program order. -/
inductive Request where
  /-- `GET /projects/:pid/work_packages` with `params = {pageSize, offset}`. -/
  | getPage (projectId : String) (pageSize offset : Nat)
  /-- `GET` of a single resource (the refetch of `patchWithConflictRetry`). -/
  | getWP (path : String)
  /-- `PATCH` of a work package. -/
  | patchWP (target : String) (payload : UpdatePayload)
  /-- `POST` creating a work package in a project. -/
  | postWP (projectId : String) (payload : CreatePayload)
  /-- one `sendNotification` forwarding a pulled item. -/
  | notifyItem (item : Item)
deriving DecidableEq, Repr


/-! ## Conflict-safe update: `patchWithConflictRetry` (helpers.ts 418-443) -/


/-- Backend oracle for `patchWithConflictRetry`: the outcome of a PATCH
for a given payload, and the outcome of the recovery GET
(`some lv` when `current.data?.lockVersion` is a number, `none` when the
stamp cannot be extracted). -/
structure PatchEnv where
  patch : UpdatePayload → Except AxErr String
  getResource : Except AxErr (Option Int)


/-- Shallow embedding of `patchWithConflictRetry`:
try the PATCH once; on a 409 GET the resource, and if a numeric
`lockVersion` is found retry once with it; the original 409 is rethrown
when the recovery GET fails, when no numeric stamp is found, or when the
retried PATCH itself fails; any non-409 error is rethrown immediately.
Returns the result together with the trace of issued requests. -/
def patchWithConflictRetry (env : PatchEnv) (getUrl patchUrl : String)
    (payload : UpdatePayload) : Except AxErr String × List Request :=
  match env.patch payload with
  | .ok r => (.ok r, [.patchWP patchUrl payload])
  | .error err =>
    if err.status = some 409 then
      match env.getResource with
      | .error _ => (.error err, [.patchWP patchUrl payload, .getWP getUrl])
      | .ok latestLock =>
        match latestLock with
        | some lk =>
          let newPayload := { payload with lockVersion := some lk }
          match env.patch newPayload with
          | .ok r =>
            (.ok r, [.patchWP patchUrl payload, .getWP getUrl, .patchWP patchUrl newPayload])
          | .error _ =>
            (.error err, [.patchWP patchUrl payload, .getWP getUrl, .patchWP patchUrl newPayload])
        | none => (.error err, [.patchWP patchUrl payload, .getWP getUrl])
    else (.error err, [.patchWP patchUrl payload])


/-- Is a trace entry a PATCH? -/
def Request.isPatch : Request → Bool
  | .patchWP _ _ => true
  | _ => false


/-! ## Gateway retry interceptor (`getOpenProjectApi`, helpers.ts 303-324)

The axios response-error interceptor: on a failed request with status
429 or 5xx and `config.__retryCount < 4` it increments the counter,
sleeps `2^count * 100 + random(0,100)` ms and re-issues the same config
through `instance.request`, which re-enters the interceptor, so the
retry is a bounded recursion on the per-call `__retryCount`. -/


/-- Outcome of dispatching one HTTP attempt: a fulfilled response, or a
rejection carrying `err.response?.status` (`none` = no response). -/
inductive Attempt where
  | ok (data : Nat)
  | fail (status : Option Nat)
deriving DecidableEq, Repr


/-- `status === 429 || (status >= 500 && status < 600)`; an undefined
status compares false in JS. -/
def shouldRetry (status : Option Nat) : Bool :=
  match status with
  | some s => s == 429 || (decide (500 ≤ s) && decide (s < 600))
  | none => false


/-- `const maxRetries = 4`. -/
def maxRetries : Nat := 4


deriving instance DecidableEq for Except


/-- Observable behaviour of one logical call: final outcome, number of
attempts dispatched, and the backoff delays slept (in ms), in order. -/
structure CallTrace where
  outcome : Except (Option Nat) Nat
  attempts : Nat
  delays : List Nat
deriving DecidableEq, Repr


/-- One logical call through the retry interceptor.  `oracle i` is the
outcome the backend gives to the `i`-th dispatched attempt, `jitter n`
models `Math.floor(Math.random() * 100)` sampled before the `n`-th
retry.  `retryCount` is `config.__retryCount` (fresh configs start at
0 via `config.__retryCount = config.__retryCount || 0`). -/
def runRequestAux (oracle : Nat → Attempt) (jitter : Nat → Nat)
    (attemptIdx retryCount : Nat) : CallTrace :=
  match oracle attemptIdx with
  | .ok r => ⟨.ok r, 1, []⟩
  | .fail st =>
    if h : shouldRetry st = true ∧ retryCount < maxRetries then
      let rc := retryCount + 1
      let d := 2 ^ rc * 100 + jitter rc
      let rest := runRequestAux oracle jitter (attemptIdx + 1) rc
      ⟨rest.outcome, rest.attempts + 1, d :: rest.delays⟩
    else ⟨.error st, 1, []⟩
termination_by maxRetries + 1 - retryCount
decreasing_by omega


/-- A logical call starts with a fresh `__retryCount`.  The interceptor
never reads the HTTP method (`method` is unused): retries apply to
GETs and non-idempotent writes alike. -/
def runRequest (oracle : Nat → Attempt) (jitter : Nat → Nat)
    (method : String) : CallTrace :=
  runRequestAux oracle jitter 0 0


/-! ## Conditional (ETag) cache interceptors (getOpenProjectApi, helpers.ts 262-301) -/


/-- An axios request config at request-interceptor time.  `url` is the
string the caller passed; query parameters supplied through the
separate `params` config option (as every list/paging call does, e.g.
`api.get(url, { params: { pageSize, offset } })`) are serialized into
the final URL only after the request interceptors run, so at
interceptor time they are visible in `params` and never in `url`. -/
structure AxiosReq where
  method : String
  baseURL : String
  url : String
  params : List (String × String)
  headers : List (String × String)
deriving DecidableEq, Repr


/-- A response as seen by the fulfilled response interceptor:
`method`, `baseURL`, `url` come from `response.config`, `etagHeader` is
`response.headers?.etag` (`none` = absent or falsy), `data` the body
(empty for a 304). -/
structure AxiosResp where
  status : Nat
  method : String
  baseURL : String
  url : String
  etagHeader : Option String
  data : String
deriving DecidableEq, Repr


/-- The process-wide `etagCache : Map<string, {etag, data}>`, as an
association list whose `lookup` returns the most recent binding. -/
abbrev EtagCache := List (String × String × String)


/-- `etagCache.set(key, {etag, data})` (observationally a map update:
`lookup` finds the new binding first). -/
def cacheSet (c : EtagCache) (k : String) (v : String × String) : EtagCache :=
  (k, v) :: c


/-- The cache key computed in both interceptors:
`` `${req.baseURL || ""}${req.url || ""}` `` — neither the HTTP method
nor the `params` object is part of it. -/
def reqCacheKey (r : AxiosReq) : String := r.baseURL ++ r.url


/-- The same key computation on the response side
(`response.config.baseURL + response.config.url`). -/
def respCacheKey (r : AxiosResp) : String := r.baseURL ++ r.url


/-- `req.headers["If-None-Match"] = etag`. -/
def setHeader (hs : List (String × String)) (k v : String) : List (String × String) :=
  (k, v) :: hs


/-- `s.toLowerCase()`, written over the character list so that it
evaluates by kernel reduction. -/
def lowerString (s : String) : String := String.mk (s.data.map Char.toLower)


/-- Request interceptor: for GETs (`req.method.toLowerCase() === "get"`),
attach `If-None-Match` when the cache holds an entry with a truthy etag
for the key. -/
def requestInterceptor (cache : EtagCache) (req : AxiosReq) : AxiosReq :=
  if lowerString req.method = "get" then
    match cache.lookup (reqCacheKey req) with
    | some (etag, _) =>
      if etag ≠ "" then
        { req with headers := setHeader req.headers "If-None-Match" etag }
      else req
    | none => req
  else req


/-- Fulfilled response interceptor: first store `{etag, data}` for any
GET response carrying an etag header (the code performs no status
check here), then, if the status is 304, synthesize a 200 whose body is
whatever the cache now holds for the key; a 304 with no cache entry is
returned as-is. -/
def responseInterceptor (cache : EtagCache) (resp : AxiosResp) :
    AxiosResp × EtagCache :=
  let cache1 :=
    match resp.etagHeader with
    | some e =>
      if resp.method = "get" then cacheSet cache (respCacheKey resp) (e, resp.data)
      else cache
    | none => cache
  if resp.status = 304 then
    match cache1.lookup (respCacheKey resp) with
    | some (_, d) => ({ resp with status := 200, data := d }, cache1)
    | none => (resp, cache1)
  else (resp, cache1)


/-- A paged GET of a task collection; only `params` varies with the
page. -/
def pageReq (off : String) : AxiosReq :=
  ⟨"get", "https://op.example/api/v3", "/projects/1/work_packages",
   [("pageSize", "2"), ("offset", off)], []⟩


/-- A 200 response to `pageReq "0"` carrying an ETag. -/
def pageResp1 : AxiosResp :=
  ⟨200, "get", "https://op.example/api/v3", "/projects/1/work_packages",
   some "E1", "BODY1"⟩


/-- A cache holding the body of a previous 200 for one resource. -/
def cachedEntry : EtagCache :=
  [("https://op.example/api/v3/work_packages/9", ("E1", "BODY1"))]


/-- A 304 answer for that resource that itself carries an ETag header. -/
def resp304WithEtag : AxiosResp :=
  ⟨304, "get", "https://op.example/api/v3", "/work_packages/9", some "E1", ""⟩


/-- The same 304 answer without an ETag header. -/
def resp304NoEtag : AxiosResp :=
  ⟨304, "get", "https://op.example/api/v3", "/work_packages/9", none, ""⟩


/-! ## The `openproject-sync` tool (mcp.ts 794-916)

The handler body is embedded as a pure function over a backend oracle
`SyncEnv`; every outbound action is recorded in a `Request` trace.  The
paginated pull loop is a `while (true)` whose real-world divergence
potential (e.g. `batchSize = 0` never satisfies
`elements.length < batchSize`) is modelled with explicit fuel:
`none` means the fuel ran out. -/


/-- Backend oracle for one sync run.  `getPage pid pageSize offset` is
the outcome of `GET /projects/:pid/work_packages` (the elements array,
with an absent `_embedded.elements` modelled as `[]`); `notify` is the
outcome of forwarding one item through `context.sendNotification`;
`patchWP`/`postWP` are the write outcomes. -/
structure SyncEnv where
  getPage : String → Nat → Nat → Except AxErr (List Item)
  notify : Item → Except AxErr Unit
  patchWP : String → UpdatePayload → Except AxErr String
  postWP : String → CreatePayload → Except AxErr String


/-- `direction` parameter of the tool. -/
inductive Direction where
  | pull
  | push
  | both
deriving DecidableEq, Repr


/-- The tool's parameters.  `projectId = none` models an absent (or
falsy) projectId; `itemsToPush = none` models `itemsToPush` failing the
`Array.isArray` test (absent or not an array). -/
structure SyncParams where
  projectId : Option String
  direction : Direction
  itemsToPush : Option (List PushItem)
  dryRun : Bool
  batchSize : Nat
deriving Repr


/-- One entry of `results.pushed`. -/
inductive PushedEntry where
  /-- dry run: `{action: item.id ? "update" : "create", item}`. -/
  | planned (action : String) (item : PushItem)
  /-- `{action: "update", id, result}`. -/
  | update (id : String) (result : String)
  /-- `{action: "create", result}`. -/
  | create (result : String)
  /-- `{action: "noop", id, reason}`. -/
  | noop (id : String) (reason : String)
deriving DecidableEq, Repr


/-- `results` as returned to the caller. -/
structure SyncData where
  pulled : List Item
  pushed : List PushedEntry
  errors : List String
deriving DecidableEq, Repr


/-- What the tool invocation produces: the early "already in progress"
return, a completed `SyncResult`, or an exception escaping the handler
body (to be caught and formatted by `withOpenProject`). -/
inductive SyncReturn where
  | inProgress (key : String)
  | completed (data : SyncData)
  | threw (msg : String)
deriving DecidableEq, Repr


/-- `item.id || item.subject || "<no-id>"` used in push error strings. -/
def pushErrIdent (it : PushItem) : String :=
  (it.id.getD (it.subject.getD "<no-id>"))


/-- `el.id || "<no-id>"` used in notify error strings. -/
def notifyErrMsg (el : Item) (e : AxErr) : String :=
  "notify error for item " ++ el.id.getD "<no-id>" ++ ": " ++ e.msg


/-- The update payload built from the fields actually present on the
candidate (`if (item.subject) ...` etc.). -/
def updatePayloadOf (it : PushItem) : UpdatePayload :=
  ⟨it.subject, it.description, it.lockVersion⟩


/-- `Object.keys(payload).length === 0`. -/
def updatePayloadEmpty (pl : UpdatePayload) : Bool :=
  pl.subject.isNone && pl.description.isNone && pl.lockVersion.isNone


/-- The create payload with the code's fallbacks
(`item.subject || "No subject"` etc.). -/
def createPayloadOf (pid : String) (it : PushItem) : CreatePayload :=
  ⟨it.subject.getD "No subject", it.description.getD "",
   it.type.getD "/api/v3/types/1", "/api/v3/projects/" ++ pid⟩


/-- Processing of ONE push candidate (the body of the `for` loop with
its per-item `try/catch`): returns either a pushed entry or the error
string recorded in `results.errors`, together with the requests made. -/
def pushOne (env : SyncEnv) (pid : String) (dryRun : Bool) (it : PushItem) :
    (PushedEntry ⊕ String) × List Request :=
  if dryRun then
    (.inl (.planned (if it.id.isSome then "update" else "create") it), [])
  else
    match it.id with
    | some i =>
      let payload := updatePayloadOf it
      if updatePayloadEmpty payload then
        (.inl (.noop i "no updatable fields"), [])
      else
        match env.patchWP i payload with
        | .ok dta => (.inl (.update i dta), [.patchWP i payload])
        | .error e =>
          (.inr ("push error for item " ++ pushErrIdent it ++ ": " ++ e.msg),
           [.patchWP i payload])
    | none =>
      let payload := createPayloadOf pid it
      match env.postWP pid payload with
      | .ok dta => (.inl (.create dta), [.postWP pid payload])
      | .error e =>
        (.inr ("push error for item " ++ pushErrIdent it ++ ": " ++ e.msg),
         [.postWP pid payload])


/-- The push `for` loop: every candidate is processed independently and
in order; a failing candidate contributes an error string and the loop
continues. -/
def pushLoop (env : SyncEnv) (pid : String) (dryRun : Bool) :
    List PushItem → List PushedEntry × List String × List Request
  | [] => ([], [], [])
  | it :: rest =>
    let r := pushOne env pid dryRun it
    let rec2 := pushLoop env pid dryRun rest
    match r.1 with
    | .inl entry => (entry :: rec2.1, rec2.2.1, r.2 ++ rec2.2.2)
    | .inr msg => (rec2.1, msg :: rec2.2.1, r.2 ++ rec2.2.2)


/-- Per-page item processing: each element is appended to `pulled` and
then forwarded through `sendNotification`; a forwarding failure is
recorded and does not stop the loop.  Returns (errors, trace). -/
def processPulled (env : SyncEnv) : List Item → List String × List Request
  | [] => ([], [])
  | el :: rest =>
    let r := processPulled env rest
    match env.notify el with
    | .ok _ => (r.1, .notifyItem el :: r.2)
    | .error e => (notifyErrMsg el e :: r.1, .notifyItem el :: r.2)


/-- Result of the pull `while` loop. -/
structure PullRes where
  pulled : List Item
  errors : List String
  trace : List Request
  /-- an exception that escaped the loop (a failed page GET), if any. -/
  exc : Option AxErr
deriving Repr


/-- The pull `while (true)` loop (mcp.ts 835-857): fetch a page at the
current offset, push every element to `pulled`, attempt to forward it,
break when a page has fewer elements than `batchSize`, else advance the
offset by the page length.  A failed page GET escapes as an exception.
Fuel bounds the iteration count (`none` = fuel exhausted; with
`batchSize = 0` the real loop never terminates). -/
def pullLoop (env : SyncEnv) (pid : String) (batchSize : Nat) :
    Nat → Nat → Option PullRes
  | 0, _ => none
  | fuel + 1, offset =>
    match env.getPage pid batchSize offset with
    | .error e => some ⟨[], [], [.getPage pid batchSize offset], some e⟩
    | .ok elements =>
      let pr := processPulled env elements
      let head : PullRes :=
        ⟨elements, pr.1, .getPage pid batchSize offset :: pr.2, none⟩
      if elements.length < batchSize then some head
      else
        match pullLoop env pid batchSize fuel (offset + elements.length) with
        | none => none
        | some rest =>
          some ⟨head.pulled ++ rest.pulled, head.errors ++ rest.errors,
                head.trace ++ rest.trace, rest.exc⟩


/-- The handler body inside the lock (mcp.ts 825-911): the pull phase
(when requested) runs first and its exception aborts the body; the push
phase runs only when `itemsToPush` passed `Array.isArray`.  Both phases
require a `projectId` and otherwise only record an error string. -/
def syncBody (env : SyncEnv) (p : SyncParams) (fuel : Nat) :
    Option (SyncData × List Request × Option AxErr) :=
  let pullStep : Option (SyncData × List Request × Option AxErr) :=
    if p.direction = .pull ∨ p.direction = .both then
      match p.projectId with
      | none =>
        some (⟨[], [], ["projectId is required for pull direction"]⟩, [], none)
      | some pid =>
        match pullLoop env pid p.batchSize fuel 0 with
        | none => none
        | some pr => some (⟨pr.pulled, [], pr.errors⟩, pr.trace, pr.exc)
    else some (⟨[], [], []⟩, [], none)
  match pullStep with
  | none => none
  | some (s, tr, exc) =>
    if exc.isSome then some (s, tr, exc)
    else
      if p.direction = .push ∨ p.direction = .both then
        match p.itemsToPush with
        | some items =>
          match p.projectId with
          | none =>
            some ({ s with
                     errors := s.errors ++ ["projectId is required for push direction"] },
                  tr, none)
          | some pid =>
            let r := pushLoop env pid p.dryRun items
            some ({ s with pushed := r.1, errors := s.errors ++ r.2.1 },
                  tr ++ r.2.2, none)
        | none => some (s, tr, none)
      else some (s, tr, none)


/-- The whole tool invocation (mcp.ts 807-916): compute the lock key
(`projectId || "__global__"`), return early when a sync for that scope
is in flight, otherwise set the lock, run the body, and — in a
`finally` — delete the lock whatever happened.  Returns the result, the
request trace and the final lock map. -/
def syncTool (env : SyncEnv) (locks : List String) (p : SyncParams)
    (fuel : Nat) : Option (SyncReturn × List Request × List String) :=
  let lockKey := p.projectId.getD "__global__"
  if locks.contains lockKey then
    some (.inProgress lockKey, [], locks)
  else
    match syncBody env p fuel with
    | none => none
    | some (s, tr, exc) =>
      let ret := match exc with
        | some e => SyncReturn.threw e.msg
        | none => SyncReturn.completed s
      some (ret, tr, (lockKey :: locks).erase lockKey)


/-- A trivial backend oracle (never consulted in the runs below that
use it). -/
def cEnvTriv : SyncEnv :=
  ⟨fun _ _ _ => .ok [], fun _ => .ok (), fun _ _ => .ok "", fun _ _ => .ok ""⟩


/-! ## Delete handlers (mcp.ts 488-550) -/


/-- `axios.isAxiosError(error) && error.response?.status === 404`. -/
def isNotFoundError (e : AxErr) : Bool := e.status == some 404


/-- The `openproject-delete-project` handler body: a 404 from the
DELETE is converted to a success-like "not found / already deleted"
text; any other error is rethrown (to `withOpenProject`). -/
def deleteProjectHandler (outcome : Except AxErr Unit) (projectId : String) :
    Except AxErr (List String) :=
  match outcome with
  | .ok _ => .ok ["Successfully deleted project with ID: " ++ projectId]
  | .error e =>
    if isNotFoundError e then
      .ok ["Project with ID " ++ projectId ++
           " not found. It might have already been deleted."]
    else .error e


/-- The `openproject-delete-task` handler body, same policy. -/
def deleteTaskHandler (outcome : Except AxErr Unit) (taskId : String) :
    Except AxErr (List String) :=
  match outcome with
  | .ok _ => .ok ["Successfully deleted task with ID: " ++ taskId]
  | .error e =>
    if isNotFoundError e then
      .ok ["Task with ID " ++ taskId ++
           " not found. It might have already been deleted."]
    else .error e


/-- The `withOpenProject` wrapper's catch: a thrown error becomes an
`ERROR: <message>` result. -/
def withOpenProjectWrap (r : Except AxErr (List String)) : List String :=
  match r with
  | .ok texts => texts
  | .error e => ["ERROR: " ++ e.msg]


/-- A backend whose PATCH always answers 409 (concurrent modification)
and a candidate item with an id and updatable fields. -/
def c4env : SyncEnv :=
  ⟨fun _ _ _ => .ok [], fun _ => .ok (),
   fun _ _ => .error ⟨some 409, "409 Conflict"⟩, fun _ _ => .ok ""⟩


def c4item : PushItem := ⟨some "7", some "new subject", none, some 3, none⟩


/-- `true` exactly for the refetch GET of a single resource. -/
def Request.isGetWP : Request → Bool
  | .getWP _ => true
  | _ => false


/-! ## Pull pagination (C8) -/


/-- Extract the item of a notification trace entry. -/
def notifyOf : Request → Option Item
  | .notifyItem i => some i
  | _ => none


/-- `true` exactly for a page request. -/
def Request.isGetPage : Request → Bool
  | .getPage _ _ _ => true
  | _ => false


/-- The error string a failing forward contributes, or `none`. -/
def nfErrOf (nf : Item → Except AxErr Unit) (el : Item) : Option String :=
  match nf el with
  | .ok _ => none
  | .error e => some (notifyErrMsg el e)


/-- A backend whose task collection is `coll`, served in slices by the
offset cursor, with all other calls trivial. -/
def pagesEnv (coll : List Item) (nf : Item → Except AxErr Unit) : SyncEnv :=
  ⟨fun _ b off => .ok ((coll.drop off).take b), nf,
   fun _ _ => .ok "", fun _ _ => .ok ""⟩


/-- The five-item collection of the example scenario. -/
def c5items : List Item :=
  [⟨some "1"⟩, ⟨some "2"⟩, ⟨some "3"⟩, ⟨some "4"⟩, ⟨some "5"⟩]


/-- A forward callback that fails exactly on item "3". -/
def cNotify : Item → Except AxErr Unit := fun el =>
  if el.id = some "3" then .error ⟨none, "boom"⟩ else .ok ()


/-- A backend for the conflict-retry witness: the PATCH succeeds only
with the fresh stamp 7, which the recovery GET reports. -/
def c1env : PatchEnv :=
  ⟨fun pl => if pl.lockVersion = some 7 then .ok "updated"
             else .error ⟨some 409, "conflict"⟩,
   .ok (some 7)⟩


def c1payload : UpdatePayload := ⟨some "s", none, some 3⟩


/-- C1.  The conflict-safe update protocol: one initial attempt; the
recovery GET happens iff the first PATCH fails with status 409; on a
numeric fresh stamp the PATCH is retried exactly once with
`lockVersion` replaced; the original 409 (never the recovery's error) is
propagated when the stamp is unobtainable or the retry fails; non-409
errors propagate immediately; at most two PATCHes ever happen. -/
theorem conflict_retry_protocol (env : PatchEnv) (getUrl patchUrl : String)
    (payload : UpdatePayload) (p : Except AxErr String × List Request)
    (hp : p = patchWithConflictRetry env getUrl patchUrl payload) :
    ((p.2.filter Request.isPatch).length ≤ 2) ∧
    (p.2.head? = some (.patchWP patchUrl payload)) ∧
    ((Request.getWP getUrl ∈ p.2) ↔
      (∃ e, env.patch payload = .error e ∧ e.status = some 409)) ∧
    (∀ r, env.patch payload = .ok r → p = (.ok r, [.patchWP patchUrl payload])) ∧
    (∀ e, env.patch payload = .error e → e.status ≠ some 409 →
      p = (.error e, [.patchWP patchUrl payload])) ∧
    (∀ e, env.patch payload = .error e → e.status = some 409 →
      ((∀ e2, env.getResource = .error e2 →
          p = (.error e, [.patchWP patchUrl payload, .getWP getUrl])) ∧
       (env.getResource = .ok none →
          p = (.error e, [.patchWP patchUrl payload, .getWP getUrl])) ∧
       (∀ lk, env.getResource = .ok (some lk) →
          p.2 = [.patchWP patchUrl payload, .getWP getUrl,
                 .patchWP patchUrl { payload with lockVersion := some lk }] ∧
          (∀ r, env.patch { payload with lockVersion := some lk } = .ok r →
             p.1 = .ok r) ∧
          (∀ e2, env.patch { payload with lockVersion := some lk } = .error e2 →
             p.1 = .error e)))) := by
  rcases hfirst : env.patch payload with e | r
  · by_cases h409 : e.status = some 409
    · rcases hget : env.getResource with e2 | lok
      · simp only [patchWithConflictRetry, hfirst, h409, hget, if_true] at hp
        subst hp
        refine ⟨by simp [Request.isPatch], by simp, by simp [h409], ?_, ?_, ?_⟩
        · intro r hr; simp [hfirst] at hr
        · intro e' he' hne
          simp only [Except.error.injEq] at he'; subst he'; exact absurd h409 hne
        · intro e' he' _
          simp only [Except.error.injEq] at he'; subst he'
          refine ⟨fun e2' _ => rfl, ?_, ?_⟩
          · intro hok; simp [hget] at hok
          · intro lk hok; simp [hget] at hok
      · rcases lok with _ | lk
        · simp only [patchWithConflictRetry, hfirst, h409, hget, if_true] at hp
          subst hp
          refine ⟨by simp [Request.isPatch], by simp, by simp [h409], ?_, ?_, ?_⟩
          · intro r hr; simp [hfirst] at hr
          · intro e' he' hne
            simp only [Except.error.injEq] at he'; subst he'; exact absurd h409 hne
          · intro e' he' _
            simp only [Except.error.injEq] at he'; subst he'
            refine ⟨?_, fun _ => rfl, ?_⟩
            · intro e2' hbad; simp [hget] at hbad
            · intro lk hok; simp [hget] at hok
        · rcases hsecond : env.patch { payload with lockVersion := some lk } with e2 | r2
          · simp only [patchWithConflictRetry, hfirst, h409, hget, hsecond, if_true] at hp
            subst hp
            refine ⟨by simp [Request.isPatch], by simp, by simp [h409], ?_, ?_, ?_⟩
            · intro r hr; simp [hfirst] at hr
            · intro e' he' hne
              simp only [Except.error.injEq] at he'; subst he'; exact absurd h409 hne
            · intro e' he' _
              simp only [Except.error.injEq] at he'; subst he'
              refine ⟨?_, ?_, ?_⟩
              · intro e2' hbad; simp [hget] at hbad
              · intro hbad; simp [hget] at hbad
              · intro lk' hok
                simp only [hget, Except.ok.injEq, Option.some.injEq] at hok; subst hok
                refine ⟨rfl, ?_, ?_⟩
                · intro r' hr'; simp [hsecond] at hr'
                · intro e2' _; rfl
          · simp only [patchWithConflictRetry, hfirst, h409, hget, hsecond, if_true] at hp
            subst hp
            refine ⟨by simp [Request.isPatch], by simp, by simp [h409], ?_, ?_, ?_⟩
            · intro r hr; simp [hfirst] at hr
            · intro e' he' hne
              simp only [Except.error.injEq] at he'; subst he'; exact absurd h409 hne
            · intro e' he' _
              simp only [Except.error.injEq] at he'; subst he'
              refine ⟨?_, ?_, ?_⟩
              · intro e2' hbad; simp [hget] at hbad
              · intro hbad; simp [hget] at hbad
              · intro lk' hok
                simp only [hget, Except.ok.injEq, Option.some.injEq] at hok; subst hok
                refine ⟨rfl, ?_, ?_⟩
                · intro r' hr'
                  simp only [hsecond, Except.ok.injEq] at hr'; subst hr'; rfl
                · intro e2' hbad; simp [hsecond] at hbad
    · simp only [patchWithConflictRetry, hfirst, h409, if_false] at hp
      subst hp
      refine ⟨by simp [Request.isPatch], by simp, by simp [h409], ?_, ?_, ?_⟩
      · intro r hr; simp [hfirst] at hr
      · intro e' he' _
        simp only [Except.error.injEq] at he'; subst he'; rfl
      · intro e' he' h9
        simp only [Except.error.injEq] at he'; subst he'; exact absurd h9 h409
  · simp only [patchWithConflictRetry, hfirst] at hp
    subst hp
    refine ⟨by simp [Request.isPatch], by simp, by simp, ?_, ?_, ?_⟩
    · intro r' hr'
      simp only [Except.ok.injEq] at hr'; subst hr'; rfl
    · intro e he; simp [hfirst] at he
    · intro e he; simp [hfirst] at he


lemma runRequestAux_attempts_pos (oracle : Nat → Attempt) (jitter : Nat → Nat)
    (k rc : Nat) : 1 ≤ (runRequestAux oracle jitter k rc).attempts := by
  rcases horacle : oracle k with r | st
  · rw [runRequestAux, horacle]
  · rw [runRequestAux, horacle]
    dsimp only
    by_cases hcond : shouldRetry st = true ∧ rc < maxRetries
    · rw [dif_pos hcond]
      show 1 ≤ (runRequestAux oracle jitter (k + 1) (rc + 1)).attempts + 1
      omega
    · rw [dif_neg hcond]


lemma runRequestAux_attempts_le (oracle : Nat → Attempt) (jitter : Nat → Nat)
    (k rc : Nat) (h : rc ≤ maxRetries) :
    (runRequestAux oracle jitter k rc).attempts ≤ maxRetries + 1 - rc := by
  rcases horacle : oracle k with r | st
  · rw [runRequestAux, horacle]
    show 1 ≤ maxRetries + 1 - rc
    omega
  · rw [runRequestAux, horacle]
    dsimp only
    by_cases hcond : shouldRetry st = true ∧ rc < maxRetries
    · rw [dif_pos hcond]
      have ih := runRequestAux_attempts_le oracle jitter (k + 1) (rc + 1)
        (by omega)
      show (runRequestAux oracle jitter (k + 1) (rc + 1)).attempts + 1 ≤ maxRetries + 1 - rc
      have h2 := hcond.2
      omega
    · rw [dif_neg hcond]
      show 1 ≤ maxRetries + 1 - rc
      omega
termination_by maxRetries + 1 - rc
decreasing_by omega


lemma runRequestAux_delays_eq (oracle : Nat → Attempt) (jitter : Nat → Nat)
    (k rc : Nat) :
    (runRequestAux oracle jitter k rc).delays =
      (List.range ((runRequestAux oracle jitter k rc).attempts - 1)).map
        (fun i => 2 ^ (rc + 1 + i) * 100 + jitter (rc + 1 + i)) := by
  rcases horacle : oracle k with r | st
  · rw [runRequestAux, horacle]
    simp
  · rw [runRequestAux, horacle]
    dsimp only
    by_cases hcond : shouldRetry st = true ∧ rc < maxRetries
    · rw [dif_pos hcond]
      have ih := runRequestAux_delays_eq oracle jitter (k + 1) (rc + 1)
      obtain ⟨n, hn⟩ : ∃ n, (runRequestAux oracle jitter (k + 1) (rc + 1)).attempts = n + 1 :=
        ⟨(runRequestAux oracle jitter (k + 1) (rc + 1)).attempts - 1,
          (Nat.succ_pred_eq_of_pos (runRequestAux_attempts_pos oracle jitter (k + 1) (rc + 1))).symm⟩
      show (2 ^ (rc + 1) * 100 + jitter (rc + 1)) ::
            (runRequestAux oracle jitter (k + 1) (rc + 1)).delays =
          (List.range ((runRequestAux oracle jitter (k + 1) (rc + 1)).attempts + 1 - 1)).map
            (fun i => 2 ^ (rc + 1 + i) * 100 + jitter (rc + 1 + i))
      rw [ih, hn]
      simp only [Nat.add_sub_cancel, List.range_succ_eq_map, List.map_cons, List.map_map]
      refine congrArg₂ _ rfl ?_
      refine List.map_congr_left fun i _ => ?_
      simp only [Function.comp_apply]
      have harith : rc + 1 + 1 + i = rc + 1 + (i + 1) := by omega
      rw [harith]
    · rw [dif_neg hcond]
      simp
termination_by maxRetries + 1 - rc
decreasing_by omega


lemma runRequestAux_all_fail (stf : Nat → Option Nat) (jitter : Nat → Nat)
    (hst : ∀ i, shouldRetry (stf i) = true) (k rc : Nat) (h : rc ≤ maxRetries) :
    ((runRequestAux (fun i => .fail (stf i)) jitter k rc).outcome
        = .error (stf (k + (maxRetries - rc))) ∧
     (runRequestAux (fun i => .fail (stf i)) jitter k rc).attempts
        = maxRetries + 1 - rc) := by
  rw [runRequestAux]
  dsimp only
  by_cases hlt : rc < maxRetries
  · rw [dif_pos ⟨hst k, hlt⟩]
    have ih := runRequestAux_all_fail stf jitter hst (k + 1) (rc + 1) (by omega)
    refine ⟨?_, ?_⟩
    · show (runRequestAux (fun i => .fail (stf i)) jitter (k + 1) (rc + 1)).outcome
        = .error (stf (k + (maxRetries - rc)))
      rw [ih.1]
      have : k + 1 + (maxRetries - (rc + 1)) = k + (maxRetries - rc) := by omega
      rw [this]
    · show (runRequestAux (fun i => .fail (stf i)) jitter (k + 1) (rc + 1)).attempts + 1
        = maxRetries + 1 - rc
      rw [ih.2]
      omega
  · rw [dif_neg (by simp [hlt])]
    have hrc : rc = maxRetries := by omega
    subst hrc
    simp


lemma chain_lt_pow_delays (n : Nat) :
    List.Chain' (fun a b => a < b)
      ((List.range n).map (fun i => 2 ^ (i + 1) * 100)) := by
  refine List.Pairwise.chain' ?_
  refine List.pairwise_map.mpr ?_
  refine (List.pairwise_lt_range n).imp ?_
  intro a b hab
  have hpow : 2 ^ (a + 1) < 2 ^ (b + 1) :=
    Nat.pow_lt_pow_right (by omega) (by omega)
  omega


/-- C5.  The retry interceptor: at most 4 automatic retries per logical
call (the fresh `__retryCount` bounds the re-entry recursion, which
therefore terminates); the delay before the n-th retry is
`2^n * 100` ms plus the sampled jitter (which lies in `[0,100)`), and
the delay bases strictly increase with the attempt number; a
non-retryable first status is passed through unmodified with a single
attempt; a retryable status triggers a retry; when every attempt fails
retryable, the terminal (5th) response's status is passed through after
exhaustion; and the result is independent of the HTTP method. -/
theorem gateway_retry_policy (oracle : Nat → Attempt) (jitter : Nat → Nat)
    (method : String) :
    ((runRequest oracle jitter method).attempts ≤ maxRetries + 1) ∧
    ((runRequest oracle jitter method).delays =
      (List.range ((runRequest oracle jitter method).attempts - 1)).map
        (fun i => 2 ^ (i + 1) * 100 + jitter (i + 1))) ∧
    ((∀ n, jitter n < 100) →
      ∀ d ∈ (runRequest oracle jitter method).delays,
        ∃ n, d = 2 ^ n * 100 + jitter n ∧ 2 ^ n * 100 ≤ d ∧ d < 2 ^ n * 100 + 100) ∧
    List.Chain' (fun a b => a < b)
      ((List.range ((runRequest oracle jitter method).attempts - 1)).map
        (fun i => 2 ^ (i + 1) * 100)) ∧
    (∀ st, oracle 0 = .fail st → shouldRetry st = false →
       runRequest oracle jitter method = ⟨.error st, 1, []⟩) ∧
    (∀ st, oracle 0 = .fail st → shouldRetry st = true →
       2 ≤ (runRequest oracle jitter method).attempts) ∧
    (∀ stf : Nat → Option Nat, (∀ i, shouldRetry (stf i) = true) →
       oracle = (fun i => .fail (stf i)) →
       (runRequest oracle jitter method).outcome = .error (stf maxRetries) ∧
       (runRequest oracle jitter method).attempts = maxRetries + 1) ∧
    (∀ m2 : String, runRequest oracle jitter m2 = runRequest oracle jitter method) := by
  have hdel : (runRequest oracle jitter method).delays =
      (List.range ((runRequest oracle jitter method).attempts - 1)).map
        (fun i => 2 ^ (i + 1) * 100 + jitter (i + 1)) := by
    have h := runRequestAux_delays_eq oracle jitter 0 0
    rw [runRequest]
    rw [h]
    refine List.map_congr_left fun i _ => ?_
    have harith : 0 + 1 + i = i + 1 := by omega
    rw [harith]
  refine ⟨?_, hdel, ?_, ?_, ?_, ?_, ?_, fun _ => rfl⟩
  · simpa using runRequestAux_attempts_le oracle jitter 0 0 (by omega)
  · intro hj d hd
    rw [hdel] at hd
    obtain ⟨i, hi, rfl⟩ := List.mem_map.mp hd
    exact ⟨i + 1, rfl, by have := hj (i + 1); omega⟩
  · exact chain_lt_pow_delays _
  · intro st h0 hsr
    rw [runRequest, runRequestAux, h0]
    dsimp only
    rw [dif_neg (by simp [hsr])]
  · intro st h0 hsr
    rw [runRequest, runRequestAux, h0]
    dsimp only
    rw [dif_pos ⟨hsr, by decide⟩]
    have := runRequestAux_attempts_pos oracle jitter (0 + 1) (0 + 1)
    show 2 ≤ (runRequestAux oracle jitter (0 + 1) (0 + 1)).attempts + 1
    omega
  · intro stf hst ho
    subst ho
    have h := runRequestAux_all_fail stf jitter hst 0 0 (by omega)
    constructor
    · rw [runRequest, h.1]
      norm_num
    · rw [runRequest, h.2]
      omega


/-- Witness for C5 at a concrete always-503 backend. -/
theorem gateway_retry_policy_witness :
    shouldRetry (some 503) = true ∧
    (runRequest (fun _ => Attempt.fail (some 503)) (fun _ => 0) "patch").attempts
      = maxRetries + 1 :=
  ⟨by decide,
   ((gateway_retry_policy (fun _ => Attempt.fail (some 503)) (fun _ => 0)
      "patch").2.2.2.2.2.2.1 (fun _ => some 503) (fun _ => rfl) rfl).2⟩


/-- Counterexample to C3 as stated: two GETs to the same path that
differ only in their `params`-supplied query (`offset` 0 vs 2) get the
SAME cache key, the entry stored by the first page's 200 is consulted
for the second page's request (its `If-None-Match` is attached), and a
304 answer to the second request is served the FIRST page's cached
body. -/
theorem cache_key_collision_counterexample :
    (pageReq "0").params ≠ (pageReq "2").params ∧
    reqCacheKey (pageReq "0") = reqCacheKey (pageReq "2") ∧
    ((requestInterceptor (responseInterceptor [] pageResp1).2
        (pageReq "2")).headers.lookup "If-None-Match" = some "E1") ∧
    ((responseInterceptor (responseInterceptor [] pageResp1).2
        ⟨304, "get", "https://op.example/api/v3", "/projects/1/work_packages",
         none, ""⟩).1.data = "BODY1") :=
  ⟨by decide, by decide, by decide, by decide⟩


/-- C3 (amended).  The conditional-cache key is
`baseURL ++ url` exactly: it contains neither the HTTP method nor the
query parameters passed via the request's `params` option, so any two
requests that agree on `baseURL` and `url` — whatever their method or
`params` — share one cache entry. -/
theorem cache_key_method_and_query_free (r r2 : AxiosReq) :
    reqCacheKey r = r.baseURL ++ r.url ∧
    (r.baseURL = r2.baseURL → r.url = r2.url → reqCacheKey r = reqCacheKey r2) :=
  ⟨rfl, fun h1 h2 => by rw [reqCacheKey, reqCacheKey, h1, h2]⟩


/-- Witness for C3's amended statement at the two paged requests. -/
theorem cache_key_method_and_query_free_witness :
    (pageReq "0").baseURL = (pageReq "2").baseURL ∧
    reqCacheKey (pageReq "0") = reqCacheKey (pageReq "2") :=
  ⟨rfl, (cache_key_method_and_query_free (pageReq "0") (pageReq "2")).2 rfl rfl⟩


/-- Counterexample to C7 as stated: when the 304 response itself
carries an ETag header (the usual server behaviour), the interceptor
first overwrites the cache entry with the 304's empty body (the store
branch has no 200-status check) and then serves that empty body, NOT
the previously cached 200 body. -/
theorem etag_clobber_counterexample :
    (responseInterceptor cachedEntry resp304WithEtag).1.status = 200 ∧
    (responseInterceptor cachedEntry resp304WithEtag).1.data = "" ∧
    (responseInterceptor cachedEntry resp304WithEtag).1.data ≠ "BODY1" ∧
    ((responseInterceptor cachedEntry resp304WithEtag).2.lookup
        "https://op.example/api/v3/work_packages/9" = some ("E1", "")) :=
  ⟨rfl, rfl, by decide, rfl⟩


/-- C7 (amended).  A GET with a cached etag is sent with
`If-None-Match` equal to the stored etag; a 304 carrying no ETag header
is synthesized into a 200 whose body is the previously cached 200 body;
a 304 with no matching cache entry is passed through raw (no crash);
but a 304 that carries an ETag header first overwrites the entry with
its own (empty) body and that body is what gets served. -/
theorem conditional_get_304_synthesis (cache : EtagCache) (req : AxiosReq)
    (resp : AxiosResp) (e d : String) :
    (lowerString req.method = "get" → cache.lookup (reqCacheKey req) = some (e, d) →
       e ≠ "" →
       (requestInterceptor cache req).headers.lookup "If-None-Match" = some e) ∧
    (resp.status = 304 → resp.etagHeader = none →
       cache.lookup (respCacheKey resp) = some (e, d) →
       responseInterceptor cache resp = ({ resp with status := 200, data := d }, cache)) ∧
    (resp.status = 304 → resp.etagHeader = none →
       cache.lookup (respCacheKey resp) = none →
       responseInterceptor cache resp = (resp, cache)) ∧
    (resp.status = 304 → resp.method = "get" → resp.etagHeader = some e →
       (responseInterceptor cache resp).1.data = resp.data ∧
       (responseInterceptor cache resp).1.status = 200 ∧
       (responseInterceptor cache resp).2.lookup (respCacheKey resp)
         = some (e, resp.data)) := by
  refine ⟨?_, ?_, ?_, ?_⟩
  · intro hm hl he
    rw [requestInterceptor, if_pos hm, hl]
    dsimp only
    rw [if_pos he]
    simp [setHeader, List.lookup]
  · intro hs hh hl
    simp [responseInterceptor, hh, hs, hl]
  · intro hs hh hl
    simp [responseInterceptor, hh, hs, hl]
  · intro hs hm hh
    simp [responseInterceptor, hh, hm, hs, cacheSet, respCacheKey, List.lookup]


/-- Witness for C7's amended statement: an etag-less 304 is served the
previously cached 200 body. -/
theorem conditional_get_304_synthesis_witness :
    cachedEntry.lookup (respCacheKey resp304NoEtag) = some ("E1", "BODY1") ∧
    responseInterceptor cachedEntry resp304NoEtag =
      ({ resp304NoEtag with status := 200, data := "BODY1" }, cachedEntry) :=
  ⟨by decide,
   (conditional_get_304_synthesis cachedEntry (pageReq "0") resp304NoEtag
      "E1" "BODY1").2.1 rfl rfl (by decide)⟩


/-- C2.  Per-scope mutual exclusion and guaranteed lock release: a
sync invocation that finds its scope key (projectId, or the global
sentinel) already locked returns the "already in progress" result at
once, with an empty request trace and the lock map untouched; any
invocation that completes (whatever the body did — normal completion,
partial failure, or a thrown page-fetch exception) leaves the lock map
exactly as it found it, because the `finally` deletes the key the
handler inserted. -/
theorem sync_scope_lock (env : SyncEnv) (locks : List String)
    (p : SyncParams) (fuel : Nat) :
    (locks.contains (p.projectId.getD "__global__") = true →
       syncTool env locks p fuel =
         some (.inProgress (p.projectId.getD "__global__"), [], locks)) ∧
    (∀ ret trace locks2,
       syncTool env locks p fuel = some (ret, trace, locks2) →
       locks2 = locks) := by
  constructor
  · intro h
    have h2 : p.projectId.getD "__global__" ∈ locks := by simpa using h
    simp [syncTool, h2]
  · intro ret trace locks2 hout
    simp only [syncTool] at hout
    by_cases h : locks.contains (p.projectId.getD "__global__") = true
    · rw [if_pos h] at hout
      obtain ⟨h1, h2, h3⟩ := by
        simpa only [Option.some.injEq, Prod.mk.injEq] using hout
      exact h3.symm
    · rw [if_neg h] at hout
      rcases hsb : syncBody env p fuel with _ | trip
      · rw [hsb] at hout; cases hout
      · rw [hsb] at hout
        obtain ⟨sd, tr, exc⟩ := trip
        obtain ⟨h1, h2, h3⟩ := by
          simpa only [Option.some.injEq, Prod.mk.injEq] using hout
        rw [← h3, List.erase_cons_head]


/-- Witness for C2: a sync on the already-locked global scope returns
immediately. -/
theorem sync_scope_lock_witness :
    List.contains ["__global__"] "__global__" = true ∧
    syncTool cEnvTriv ["__global__"] ⟨none, .both, none, false, 50⟩ 1 =
      some (.inProgress "__global__", [], ["__global__"]) :=
  ⟨by decide,
   (sync_scope_lock cEnvTriv ["__global__"] ⟨none, .both, none, false, 50⟩ 1).1
     (by decide)⟩


/-- C9.  Deleting a resource the backend reports 404 for yields a
success-like "not found / already deleted" result (an `ok`, not an
error); any non-404 failure is rethrown and surfaces as an `ERROR:`
result. -/
theorem delete_not_found_idempotent (pid tid : String) (e : AxErr) :
    (e.status = some 404 →
       deleteProjectHandler (.error e) pid =
         .ok ["Project with ID " ++ pid ++
              " not found. It might have already been deleted."] ∧
       deleteTaskHandler (.error e) tid =
         .ok ["Task with ID " ++ tid ++
              " not found. It might have already been deleted."]) ∧
    (e.status ≠ some 404 →
       deleteProjectHandler (.error e) pid = .error e ∧
       withOpenProjectWrap (deleteProjectHandler (.error e) pid)
         = ["ERROR: " ++ e.msg] ∧
       deleteTaskHandler (.error e) tid = .error e ∧
       withOpenProjectWrap (deleteTaskHandler (.error e) tid)
         = ["ERROR: " ++ e.msg]) ∧
    deleteProjectHandler (.ok ()) pid =
      .ok ["Successfully deleted project with ID: " ++ pid] ∧
    deleteTaskHandler (.ok ()) tid =
      .ok ["Successfully deleted task with ID: " ++ tid] := by
  refine ⟨?_, ?_, rfl, rfl⟩
  · intro h
    constructor <;>
      simp [deleteProjectHandler, deleteTaskHandler, isNotFoundError, h]
  · intro h
    have hb : isNotFoundError e = false := by
      rw [isNotFoundError]
      exact beq_eq_false_iff_ne.mpr h
    refine ⟨?_, ?_, ?_, ?_⟩ <;>
      simp [deleteProjectHandler, deleteTaskHandler, withOpenProjectWrap, hb]


/-- Witness for C9 at a concrete 404. -/
theorem delete_not_found_idempotent_witness :
    (⟨some 404, "nf"⟩ : AxErr).status = some 404 ∧
    deleteProjectHandler (.error ⟨some 404, "nf"⟩) "12" =
      .ok ["Project with ID " ++ "12" ++
           " not found. It might have already been deleted."] :=
  ⟨rfl, ((delete_not_found_idempotent "12" "5" ⟨some 404, "nf"⟩).1 rfl).1⟩


/-- C10.  A sync with no `projectId` locks and releases the global
sentinel scope but performs no network requests at all: the pull and
push phases only record their "projectId is required" error strings
(the push one only when `itemsToPush` passed `Array.isArray`; a
non-array `itemsToPush` is skipped silently with no error). -/
theorem global_scope_sync_no_network (env : SyncEnv) (locks : List String)
    (dir : Direction) (items : Option (List PushItem)) (dry : Bool)
    (B fuel : Nat) (h : locks.contains "__global__" = false) :
    syncTool env locks ⟨none, dir, items, dry, B⟩ fuel =
      some (.completed ⟨[], [],
        (if dir = .push then [] else ["projectId is required for pull direction"]) ++
        (if dir ≠ .pull ∧ items.isSome
         then ["projectId is required for push direction"] else [])⟩,
        [], locks) := by
  have h2 : "__global__" ∉ locks := by simpa using h
  cases dir <;> cases items <;>
    simp [syncTool, syncBody, h2, List.erase_cons_head]


/-- Witness for C10: a global-scope pull-direction sync records only
the pull guard error and issues no requests. -/
theorem global_scope_sync_no_network_witness :
    List.contains ([] : List String) "__global__" = false ∧
    syncTool cEnvTriv [] ⟨none, .pull, none, false, 50⟩ 1 =
      some (.completed ⟨[], [], ["projectId is required for pull direction"]⟩,
            [], []) := by
  refine ⟨by decide, ?_⟩
  have h := global_scope_sync_no_network cEnvTriv [] .pull none false 50 1
    (by decide)
  simpa using h


/-- C6.  Push batch isolation: the pushed entries are exactly the
per-item successes in order, the recorded errors are exactly the
per-item failures in order, and for N candidates of which M fail the
loop — which never aborts early — reports N−M pushed entries and M
error strings. -/
theorem push_partial_failure_isolation (env : SyncEnv) (pid : String)
    (dry : Bool) (items : List PushItem) :
    (pushLoop env pid dry items).1 =
      items.filterMap (fun it => ((pushOne env pid dry it).1).getLeft?) ∧
    (pushLoop env pid dry items).2.1 =
      items.filterMap (fun it => ((pushOne env pid dry it).1).getRight?) ∧
    (pushLoop env pid dry items).1.length + (pushLoop env pid dry items).2.1.length
      = items.length ∧
    (pushLoop env pid dry items).2.1.length =
      (items.filter (fun it => ((pushOne env pid dry it).1).isRight)).length ∧
    (pushLoop env pid dry items).1.length =
      items.length -
        (items.filter (fun it => ((pushOne env pid dry it).1).isRight)).length := by
  have key : ∀ its : List PushItem,
      (pushLoop env pid dry its).1 =
        its.filterMap (fun it => ((pushOne env pid dry it).1).getLeft?) ∧
      (pushLoop env pid dry its).2.1 =
        its.filterMap (fun it => ((pushOne env pid dry it).1).getRight?) ∧
      (pushLoop env pid dry its).1.length + (pushLoop env pid dry its).2.1.length
        = its.length ∧
      (pushLoop env pid dry its).2.1.length =
        (its.filter (fun it => ((pushOne env pid dry it).1).isRight)).length := by
    intro its
    induction its with
    | nil => simp [pushLoop]
    | cons it rest ih =>
      obtain ⟨ih1, ih2, ih3, ih4⟩ := ih
      rw [ih1, ih2] at ih3
      rw [ih2] at ih4
      rcases hone : (pushOne env pid dry it).1 with entry | msg <;>
        refine ⟨?_, ?_, ?_, ?_⟩ <;>
          simp [pushLoop, hone, List.filterMap_cons, List.filter_cons, ih1, ih2] <;>
          omega
  obtain ⟨k1, k2, k3, k4⟩ := key items
  refine ⟨k1, k2, k3, k4, by omega⟩


/-- Counterexample to C4 as stated: in a push whose PATCH is answered
with a 409, the sync handler issues exactly ONE PATCH, performs no
refetch GET and no retry, and surfaces the 409 as the item's error —
it does not go through the conflict-safe update protocol. -/
theorem sync_push_no_conflict_retry_counterexample :
    syncTool c4env [] ⟨some "p", .push, some [c4item], false, 50⟩ 1 =
      some (.completed ⟨[], [], ["push error for item 7: 409 Conflict"]⟩,
            [.patchWP "7" ⟨some "new subject", none, some 3⟩], []) ∧
    c4env.patchWP "7" (updatePayloadOf c4item) = .error ⟨some 409, "409 Conflict"⟩ ∧
    ((syncTool c4env [] ⟨some "p", .push, some [c4item], false, 50⟩ 1).map
        (fun out => out.2.1.countP Request.isGetWP)) = some 0 ∧
    ((syncTool c4env [] ⟨some "p", .push, some [c4item], false, 50⟩ 1).map
        (fun out => out.2.1.countP Request.isPatch)) = some 1 :=
  ⟨by decide, by decide, by decide, by decide⟩


/-- C4 (amended).  For a candidate with an id and at least one
updatable field, the push loop performs the update as a single direct
PATCH (mcp.ts 883 calls `api.patch`, not `patchWithConflictRetry`):
exactly one PATCH and no refetch are issued, a success is recorded as
an update entry, and ANY error — 409 included — is recorded as the
item's error string. -/
theorem sync_push_single_patch (env : SyncEnv) (pid : String)
    (it : PushItem) (i : String) (hid : it.id = some i)
    (hne : updatePayloadEmpty (updatePayloadOf it) = false) :
    (∀ dta, env.patchWP i (updatePayloadOf it) = .ok dta →
       pushOne env pid false it =
         (.inl (.update i dta), [.patchWP i (updatePayloadOf it)])) ∧
    (∀ e, env.patchWP i (updatePayloadOf it) = .error e →
       pushOne env pid false it =
         (.inr ("push error for item " ++ pushErrIdent it ++ ": " ++ e.msg),
          [.patchWP i (updatePayloadOf it)])) ∧
    (pushOne env pid false it).2.countP Request.isGetWP = 0 ∧
    (pushOne env pid false it).2.countP Request.isPatch = 1 := by
  rcases hw : env.patchWP i (updatePayloadOf it) with e | dta
  · refine ⟨?_, ?_, ?_, ?_⟩
    · intro dta hdta; cases hdta
    · intro e' he'
      cases he'
      simp [pushOne, hid, hne, hw]
    · simp [pushOne, hid, hne, hw, Request.isGetWP]
    · simp [pushOne, hid, hne, hw, Request.isPatch]
  · refine ⟨?_, ?_, ?_, ?_⟩
    · intro dta' hdta
      cases hdta
      simp [pushOne, hid, hne, hw]
    · intro e' he'; cases he'
    · simp [pushOne, hid, hne, hw, Request.isGetWP]
    · simp [pushOne, hid, hne, hw, Request.isPatch]


/-- Witness for C4's amended statement at the concrete 409 backend. -/
theorem sync_push_single_patch_witness :
    c4item.id = some "7" ∧
    pushOne c4env "p" false c4item =
      (.inr ("push error for item " ++ pushErrIdent c4item ++ ": " ++ "409 Conflict"),
       [.patchWP "7" (updatePayloadOf c4item)]) :=
  ⟨rfl,
   (sync_push_single_patch c4env "p" c4item "7" rfl (by decide)).2.1
     ⟨some 409, "409 Conflict"⟩ rfl⟩


/-- Witness for C6 at a batch of three candidates of which the middle
one fails. -/
theorem push_partial_failure_isolation_witness :
    (pushLoop c4env "p" false
        [⟨none, some "a", none, none, none⟩, c4item,
         ⟨none, some "c", none, none, none⟩]).1.length +
      (pushLoop c4env "p" false
        [⟨none, some "a", none, none, none⟩, c4item,
         ⟨none, some "c", none, none, none⟩]).2.1.length = 3 ∧
    (pushLoop c4env "p" false
        [⟨none, some "a", none, none, none⟩, c4item,
         ⟨none, some "c", none, none, none⟩]).2.1.length = 1 :=
  ⟨(push_partial_failure_isolation c4env "p" false
      [⟨none, some "a", none, none, none⟩, c4item,
       ⟨none, some "c", none, none, none⟩]).2.2.1,
   by decide⟩


lemma processPulled_spec (env : SyncEnv) (l : List Item) :
    (processPulled env l).2 = l.map Request.notifyItem ∧
    (processPulled env l).1 = l.filterMap (nfErrOf env.notify) := by
  induction l with
  | nil => simp [processPulled]
  | cons el rest ih =>
    rcases hnf : env.notify el with e | u <;>
      simp [processPulled, hnf, ih.1, ih.2, List.filterMap_cons, nfErrOf]


lemma pullLoop_pagesEnv_sound (coll : List Item)
    (nf : Item → Except AxErr Unit) (pid : String) (B : Nat) (hB : 1 ≤ B) :
    ∀ fuel offset pr, pullLoop (pagesEnv coll nf) pid B fuel offset = some pr →
      pr.pulled = coll.drop offset ∧ pr.exc = none ∧
      pr.trace.filterMap notifyOf = coll.drop offset ∧
      pr.errors = (coll.drop offset).filterMap (nfErrOf nf) := by
  intro fuel
  induction fuel with
  | zero => intro offset pr h; simp [pullLoop] at h
  | succ f ih =>
    intro offset pr h
    rw [pullLoop] at h
    rw [show (pagesEnv coll nf).getPage
        = fun _ b off => Except.ok ((coll.drop off).take b) from rfl] at h
    dsimp only at h
    have hnotify : (pagesEnv coll nf).notify = nf := rfl
    by_cases hlt : ((coll.drop offset).take B).length < B
    · rw [if_pos hlt] at h
      injection h with h'
      subst h'
      have hlen : (coll.drop offset).length ≤ B := by
        simp only [List.length_take] at hlt
        omega
      have htake : (coll.drop offset).take B = coll.drop offset :=
        List.take_of_length_le hlen
      refine ⟨htake, rfl, ?_, ?_⟩
      · show (Request.getPage pid B offset ::
            (processPulled (pagesEnv coll nf) ((coll.drop offset).take B)).2).filterMap
              notifyOf = coll.drop offset
        rw [(processPulled_spec (pagesEnv coll nf) _).1, htake]
        simp only [List.filterMap_cons, List.filterMap_map]
        show List.filterMap (notifyOf ∘ Request.notifyItem) (coll.drop offset)
          = coll.drop offset
        rw [show notifyOf ∘ Request.notifyItem = some from rfl, List.filterMap_some]
      · show (processPulled (pagesEnv coll nf) ((coll.drop offset).take B)).1
            = (coll.drop offset).filterMap (nfErrOf nf)
        rw [(processPulled_spec (pagesEnv coll nf) _).2, hnotify, htake]
    · rw [if_neg hlt] at h
      have hlen : ((coll.drop offset).take B).length = B := by
        simp only [List.length_take] at hlt ⊢
        omega
      rcases hrec : pullLoop (pagesEnv coll nf) pid B f
          (offset + ((coll.drop offset).take B).length) with _ | rest
      · rw [hrec] at h; cases h
      · rw [hrec] at h
        injection h with h'
        subst h'
        obtain ⟨r1, r2, r3, r4⟩ :=
          ih (offset + ((coll.drop offset).take B).length) rest hrec
        rw [hlen] at r1 r3 r4
        have hdrop : coll.drop (offset + B) = (coll.drop offset).drop B := by
          rw [List.drop_drop, Nat.add_comm]
        have hdecomp : coll.drop offset =
            (coll.drop offset).take B ++ coll.drop (offset + B) := by
          rw [hdrop, List.take_append_drop]
        refine ⟨?_, r2, ?_, ?_⟩
        · show (coll.drop offset).take B ++ rest.pulled = coll.drop offset
          rw [r1, ← hdecomp]
        · show ((Request.getPage pid B offset ::
              (processPulled (pagesEnv coll nf) ((coll.drop offset).take B)).2)
              ++ rest.trace).filterMap notifyOf = coll.drop offset
          rw [List.filterMap_append, (processPulled_spec (pagesEnv coll nf) _).1, r3]
          conv_rhs => rw [hdecomp]
          congr 1
          show List.filterMap notifyOf
              (List.map Request.notifyItem ((coll.drop offset).take B))
            = (coll.drop offset).take B
          rw [List.filterMap_map,
            show notifyOf ∘ Request.notifyItem = some from rfl, List.filterMap_some]
        · show (processPulled (pagesEnv coll nf) ((coll.drop offset).take B)).1
              ++ rest.errors = (coll.drop offset).filterMap (nfErrOf nf)
          rw [(processPulled_spec (pagesEnv coll nf) _).2, hnotify, r4,
            ← List.filterMap_append, ← hdecomp]


lemma pullLoop_pagesEnv_total (coll : List Item)
    (nf : Item → Except AxErr Unit) (pid : String) (B : Nat) (hB : 1 ≤ B) :
    ∀ fuel offset, coll.length - offset + 1 ≤ fuel →
      (pullLoop (pagesEnv coll nf) pid B fuel offset).isSome = true := by
  intro fuel
  induction fuel with
  | zero => intro offset hf; omega
  | succ f ih =>
    intro offset hf
    rw [pullLoop]
    rw [show (pagesEnv coll nf).getPage
        = fun _ b off => Except.ok ((coll.drop off).take b) from rfl]
    dsimp only
    by_cases hlt : ((coll.drop offset).take B).length < B
    · rw [if_pos hlt]
      rfl
    · rw [if_neg hlt]
      have hlen : ((coll.drop offset).take B).length = B := by
        simp only [List.length_take] at hlt ⊢
        omega
      have hge : B ≤ coll.length - offset := by
        simp only [List.length_take, List.length_drop] at hlt
        omega
      have happ := ih (offset + ((coll.drop offset).take B).length)
        (by rw [hlen]; omega)
      rcases hrec : pullLoop (pagesEnv coll nf) pid B f
          (offset + ((coll.drop offset).take B).length) with _ | rest
      · rw [hrec] at happ; simp at happ
      · rfl


/-- C8.  Pull pagination: over a slice-served collection every run that
completes pulls exactly the whole collection suffix from its offset, in
backend order, attempts one forward per item in that order, records
exactly the failing forwards' error strings, and never throws; enough
fuel always exists for `batchSize ≥ 1`; and the concrete example — a
pull with batch size 2 over a 5-item collection with the forward of
item "3" failing — issues exactly 3 page requests at offsets 0, 2, 4
(page sizes 2, 2, 1), forwards all 5 items in order, records the one
notify error, and still pulls all 5 items. -/
theorem pull_pagination_order :
    (∀ (coll : List Item) (nf : Item → Except AxErr Unit) (pid : String)
       (B fuel offset : Nat) (pr : PullRes), 1 ≤ B →
       pullLoop (pagesEnv coll nf) pid B fuel offset = some pr →
       pr.pulled = coll.drop offset ∧ pr.exc = none ∧
       pr.trace.filterMap notifyOf = coll.drop offset ∧
       pr.errors = (coll.drop offset).filterMap (nfErrOf nf)) ∧
    (∀ (coll : List Item) (nf : Item → Except AxErr Unit) (pid : String)
       (B fuel offset : Nat), 1 ≤ B → coll.length - offset + 1 ≤ fuel →
       (pullLoop (pagesEnv coll nf) pid B fuel offset).isSome = true) ∧
    (syncTool (pagesEnv c5items cNotify) [] ⟨some "p", .pull, none, false, 2⟩ 10 =
       some (.completed ⟨c5items, [], ["notify error for item 3: boom"]⟩,
             [.getPage "p" 2 0, .notifyItem ⟨some "1"⟩, .notifyItem ⟨some "2"⟩,
              .getPage "p" 2 2, .notifyItem ⟨some "3"⟩, .notifyItem ⟨some "4"⟩,
              .getPage "p" 2 4, .notifyItem ⟨some "5"⟩], [])) ∧
    (([Request.getPage "p" 2 0, .notifyItem ⟨some "1"⟩, .notifyItem ⟨some "2"⟩,
       .getPage "p" 2 2, .notifyItem ⟨some "3"⟩, .notifyItem ⟨some "4"⟩,
       .getPage "p" 2 4, .notifyItem ⟨some "5"⟩].countP Request.isGetPage) = 3) :=
  ⟨fun coll nf pid B fuel offset pr hB h =>
     pullLoop_pagesEnv_sound coll nf pid B hB fuel offset pr h,
   fun coll nf pid B fuel offset hB hf =>
     pullLoop_pagesEnv_total coll nf pid B hB fuel offset hf,
   by decide, by decide⟩


/-- Witness for C8: the example run exists (its fuel suffices). -/
theorem pull_pagination_order_witness :
    (1 : Nat) ≤ 2 ∧
    (pullLoop (pagesEnv c5items cNotify) "p" 2 10 0).isSome = true :=
  ⟨by decide,
   pull_pagination_order.2.1 c5items cNotify "p" 2 10 0 (by decide) (by decide)⟩


/-- Witness for C1: a 409 on the stale stamp is recovered by exactly
one retry with the fresh stamp. -/
theorem conflict_retry_protocol_witness :
    ((patchWithConflictRetry c1env "/work_packages/5" "/work_packages/5"
        c1payload).2.filter Request.isPatch).length ≤ 2 ∧
    (patchWithConflictRetry c1env "/work_packages/5" "/work_packages/5"
        c1payload).1 = .ok "updated" :=
  ⟨(conflict_retry_protocol c1env "/work_packages/5" "/work_packages/5"
      c1payload _ rfl).1,
   by decide⟩


end OPMCP

